import Mathlib

/-!
# Verification of the work-factory batching enqueue pipeline and worker dispatch

Shallow embedding of the Rust sources:
* `crates/job-types/src/lib.rs` — `JobPayload`, `MathArgs`, tag encoding/decoding;
* `crates/worker-service/src/main.rs` — the four math handlers and `job_handler`;
* `crates/api-service/src/main.rs` — `BatchQueue`, `enqueue_batch_jobs`,
  `enqueue_job_with_batching`, the background `batch_flusher`.

Modelling conventions:
* `f64` operands are modelled at two fidelities. The handler- and
  queue-side claims, whose truth does not depend on non-finite floats, use
  `ℚ` operands. The wire-layer round-trip claim does depend on them —
  serde_json serializes NaN/±∞ to `null` — so it is settled against the
  full-fidelity `F64` model (a finite value carried exactly, or NaN/+∞/−∞);
* `serde_json::Value` is modelled by the inductive `Json`, with numbers
  carried exactly (exact for the value-tree round trip of finite floats);
* faktory job identifiers (`Job::new` mints a fresh random jid for every
  constructed job, distinct from all previously minted ones) are modelled by a
  fresh-name counter: every model-level job construction consumes the next
  natural number as its jid;
* `Result<T, E>` is modelled by `Except`.
-/

namespace WorkFactory

/-- Model of `serde_json::Value`: JSON trees with numbers carried exactly. -/
inductive Json where
  | null : Json
  | bool (b : Bool) : Json
  | num (q : ℚ) : Json
  | str (s : String) : Json
  | arr (elems : List Json) : Json
  | obj (fields : List (String × Json)) : Json

/-- `MathArgs` from `crates/job-types/src/lib.rs`: two numeric operands and an
optional caller-supplied correlation identifier. -/
structure MathArgs where
  a : ℚ
  b : ℚ
  request_id : Option String
deriving DecidableEq, Repr

/-- serde's derived `Serialize` for `MathArgs` into a `serde_json::Value`,
restricted to finite operands: an object with fields `a`, `b`, `request_id`
(an absent option serializes to `null`); a finite numeric field serializes to
a JSON number, exactly, and never fails. Non-finite `f64` operands
(serialized to `null` by serde_json) are outside the `ℚ`-valued model; the
full-fidelity serialization is `MathArgsF.toJson` below, and the round-trip
claim is settled against that model. -/
def MathArgs.toJson (m : MathArgs) : Json :=
  .obj [("a", .num m.a), ("b", .num m.b),
        ("request_id", match m.request_id with
          | none => .null
          | some s => .str s)]

/-- serde's derived `Deserialize` for `MathArgs` from a `serde_json::Value`:
requires an object with numeric fields `a` and `b`; `request_id` may be
absent, `null`, or a string. Anything else is a decode error. -/
def MathArgs.fromJson : Json → Except String MathArgs
  | .obj fields =>
    match fields.lookup "a" with
    | some (.num a) =>
      match fields.lookup "b" with
      | some (.num b) =>
        match fields.lookup "request_id" with
        | none => .ok ⟨a, b, none⟩
        | some .null => .ok ⟨a, b, none⟩
        | some (.str s) => .ok ⟨a, b, some s⟩
        | some _ => .error "invalid type for field request_id"
      | some _ => .error "invalid type for field b"
      | none => .error "missing field b"
    | some _ => .error "invalid type for field a"
    | none => .error "missing field a"
  | _ => .error "expected a MathArgs object"

/-- `JobPayload` from `crates/job-types/src/lib.rs`: the closed set of job
variants, each wrapping `MathArgs`. -/
inductive JobPayload where
  | Add (args : MathArgs) : JobPayload
  | Subtract (args : MathArgs) : JobPayload
  | Multiply (args : MathArgs) : JobPayload
  | Divide (args : MathArgs) : JobPayload
deriving DecidableEq, Repr

/-- `JobPayload::job_type`: the Faktory job-type tag of each variant. -/
def JobPayload.job_type : JobPayload → String
  | .Add _ => "math_add"
  | .Subtract _ => "math_subtract"
  | .Multiply _ => "math_multiply"
  | .Divide _ => "math_divide"

/-- The argument value serialized by `JobPayload::to_args`: each variant
serializes its `MathArgs` record. -/
def JobPayload.argsJson : JobPayload → Json
  | .Add args => args.toJson
  | .Subtract args => args.toJson
  | .Multiply args => args.toJson
  | .Divide args => args.toJson

/-- `JobPayload::to_args`: serialize the job arguments to a JSON value.
In the source this is `serde_json::to_value` on the variant's `MathArgs`,
which never fails for this record type, so the model always returns `ok`;
the `Except` return type mirrors the source's `Result`. -/
def JobPayload.to_args (p : JobPayload) : Except String Json :=
  .ok p.argsJson

/-- `JobPayload::from_job_type`: parse a job payload from the job-type tag and
the JSON argument value. A Rust `match` on string literals is a first-match
chain of equality tests, modelled by nested `if`s; the `.context(...)` calls
of `anyhow` prefix the inner decode error. -/
def JobPayload.from_job_type (job_type : String) (args : Json) :
    Except String JobPayload :=
  if job_type = "math_add" then
    match MathArgs.fromJson args with
    | .ok m => .ok (.Add m)
    | .error e => .error ("Failed to parse Add job args: " ++ e)
  else if job_type = "math_subtract" then
    match MathArgs.fromJson args with
    | .ok m => .ok (.Subtract m)
    | .error e => .error ("Failed to parse Subtract job args: " ++ e)
  else if job_type = "math_multiply" then
    match MathArgs.fromJson args with
    | .ok m => .ok (.Multiply m)
    | .error e => .error ("Failed to parse Multiply job args: " ++ e)
  else if job_type = "math_divide" then
    match MathArgs.fromJson args with
    | .ok m => .ok (.Divide m)
    | .error e => .error ("Failed to parse Divide job args: " ++ e)
  else
    .error ("Unknown job type: " ++ job_type)

/-- The repository's unit test `test_job_type_roundtrip`, evaluated in the
model: encoding then decoding the concrete `Add` instance reproduces it. -/
theorem test_job_type_roundtrip :
    JobPayload.from_job_type "math_add" (MathArgs.toJson ⟨5, 3, some "test-123"⟩)
      = .ok (.Add ⟨5, 3, some "test-123"⟩) := by rfl

/-! ## Full-fidelity wire layer for the round-trip claim (C2)

The round-trip claim quantifies over every `JobPayload` instance, and its
operands are Rust `f64` values, which include NaN and ±∞. serde_json's
`Number::from_f64` returns `None` for a non-finite float and
`From<f64> for Value` then falls back to `Value::Null`, so `to_args` encodes
a non-finite operand as `null`; deserializing `null` back into an `f64`
field fails. The `F64`-valued model below represents exactly this value
space, so the failing instances are expressible. -/

/-- Full-fidelity model of a Rust `f64` value as seen by the wire layer: a
finite value (carried exactly) or one of the non-finite values NaN, +∞, −∞. -/
inductive F64 where
  | finite (q : ℚ) : F64
  | nan : F64
  | inf : F64
  | neginf : F64
deriving DecidableEq, Repr

/-- `f64::is_finite`. -/
def F64.isFinite : F64 → Bool
  | .finite _ => true
  | _ => false

/-- serde_json serialization of one `f64`: a finite float becomes a JSON
number (exact in the value tree); for NaN/±∞, `Number::from_f64` returns
`None` and `From<f64> for Value` yields `Null`. -/
def F64.toJson : F64 → Json
  | .finite q => .num q
  | _ => .null

/-- `MathArgs` with its `f64` operands at full fidelity. -/
structure MathArgsF where
  a : F64
  b : F64
  request_id : Option String
deriving DecidableEq, Repr

/-- serde's derived `Serialize` for `MathArgs`, at full operand fidelity:
each operand serializes via `F64.toJson` (so a non-finite operand becomes
`null`), an absent `request_id` serializes to `null`. -/
def MathArgsF.toJson (m : MathArgsF) : Json :=
  .obj [("a", m.a.toJson), ("b", m.b.toJson),
        ("request_id", match m.request_id with
          | none => .null
          | some s => .str s)]

/-- serde's derived `Deserialize` for `MathArgs`, at full operand fidelity:
an `f64` field deserializes only from a JSON number (and is then finite);
in particular `null` — the serialization of a non-finite float — fails. -/
def MathArgsF.fromJson : Json → Except String MathArgsF
  | .obj fields =>
    match fields.lookup "a" with
    | some (.num a) =>
      match fields.lookup "b" with
      | some (.num b) =>
        match fields.lookup "request_id" with
        | none => .ok ⟨.finite a, .finite b, none⟩
        | some .null => .ok ⟨.finite a, .finite b, none⟩
        | some (.str s) => .ok ⟨.finite a, .finite b, some s⟩
        | some _ => .error "invalid type for field request_id"
      | some _ => .error "invalid type for field b"
      | none => .error "missing field b"
    | some _ => .error "invalid type for field a"
    | none => .error "missing field a"
  | _ => .error "expected a MathArgs object"

/-- `JobPayload` over the full-fidelity `MathArgsF`. -/
inductive JobPayloadF where
  | Add (args : MathArgsF) : JobPayloadF
  | Subtract (args : MathArgsF) : JobPayloadF
  | Multiply (args : MathArgsF) : JobPayloadF
  | Divide (args : MathArgsF) : JobPayloadF
deriving DecidableEq, Repr

/-- `JobPayload::job_type` over the full-fidelity payload. -/
def JobPayloadF.job_typeF : JobPayloadF → String
  | .Add _ => "math_add"
  | .Subtract _ => "math_subtract"
  | .Multiply _ => "math_multiply"
  | .Divide _ => "math_divide"

/-- Statement-level accessor: the `MathArgs` record wrapped by the variant
(every variant wraps one). -/
def JobPayloadF.argsF : JobPayloadF → MathArgsF
  | .Add args => args
  | .Subtract args => args
  | .Multiply args => args
  | .Divide args => args

/-- The argument value serialized by `JobPayload::to_args`, full fidelity:
each variant serializes its `MathArgs` record. -/
def JobPayloadF.argsJsonF (p : JobPayloadF) : Json :=
  p.argsF.toJson

/-- `JobPayload::to_args`, full fidelity: always `ok` (a non-finite operand
does not fail serialization — it silently becomes `null`). -/
def JobPayloadF.to_argsF (p : JobPayloadF) : Except String Json :=
  .ok p.argsJsonF

/-- `JobPayload::from_job_type`, full fidelity: the same first-match tag
chain, decoding the arguments with `MathArgsF.fromJson`. -/
def JobPayloadF.from_job_typeF (job_type : String) (args : Json) :
    Except String JobPayloadF :=
  if job_type = "math_add" then
    match MathArgsF.fromJson args with
    | .ok m => .ok (.Add m)
    | .error e => .error ("Failed to parse Add job args: " ++ e)
  else if job_type = "math_subtract" then
    match MathArgsF.fromJson args with
    | .ok m => .ok (.Subtract m)
    | .error e => .error ("Failed to parse Subtract job args: " ++ e)
  else if job_type = "math_multiply" then
    match MathArgsF.fromJson args with
    | .ok m => .ok (.Multiply m)
    | .error e => .error ("Failed to parse Multiply job args: " ++ e)
  else if job_type = "math_divide" then
    match MathArgsF.fromJson args with
    | .ok m => .ok (.Divide m)
    | .error e => .error ("Failed to parse Divide job args: " ++ e)
  else
    .error ("Unknown job type: " ++ job_type)

/-- Decoding inverts encoding on `MathArgsF` records whose operands are both
finite. -/
theorem fromJsonF_toJsonF (m : MathArgsF) (ha : m.a.isFinite = true)
    (hb : m.b.isFinite = true) : MathArgsF.fromJson m.toJson = .ok m := by
  obtain ⟨a, b, rid⟩ := m
  cases a with
  | finite qa =>
    cases b with
    | finite qb => cases rid <;> rfl
    | nan => simp [F64.isFinite] at hb
    | inf => simp [F64.isFinite] at hb
    | neginf => simp [F64.isFinite] at hb
  | nan => simp [F64.isFinite] at ha
  | inf => simp [F64.isFinite] at ha
  | neginf => simp [F64.isFinite] at ha

/-- C2 counterexample: at the concrete instance `Add {a: NaN, b: 1.0}`,
encoding succeeds — serde_json turns the non-finite operand into `null` —
but decoding the encoded payload fails with a parse error, so the round trip
does not reproduce the instance: the claim as universally stated is false. -/
theorem C2_roundtrip_counterexample :
    (JobPayloadF.Add ⟨.nan, .finite 1, none⟩).to_argsF
      = Except.ok (JobPayloadF.Add ⟨.nan, .finite 1, none⟩).argsJsonF ∧
    JobPayloadF.from_job_typeF
        (JobPayloadF.Add ⟨.nan, .finite 1, none⟩).job_typeF
        (JobPayloadF.Add ⟨.nan, .finite 1, none⟩).argsJsonF
      = Except.error
          ("Failed to parse Add job args: " ++ "invalid type for field a") ∧
    JobPayloadF.from_job_typeF
        (JobPayloadF.Add ⟨.nan, .finite 1, none⟩).job_typeF
        (JobPayloadF.Add ⟨.nan, .finite 1, none⟩).argsJsonF
      ≠ Except.ok (JobPayloadF.Add ⟨.nan, .finite 1, none⟩) := by
  refine ⟨rfl, rfl, ?_⟩
  intro h
  have h2 : (Except.error
        ("Failed to parse Add job args: " ++ "invalid type for field a")
        : Except String JobPayloadF)
      = Except.ok (JobPayloadF.Add ⟨.nan, .finite 1, none⟩) := h
  exact Except.noConfusion h2

/-- C2 amended: for every `JobPayload` instance whose operands are both
finite, decoding the encoding round-trips — `to_args` succeeds with some
argument value `v` and `from_job_type (p.job_type) v` yields exactly `p`
back (same variant, same operand values, same optional `request_id`). -/
theorem C2_roundtrip_finite (p : JobPayloadF)
    (ha : p.argsF.a.isFinite = true) (hb : p.argsF.b.isFinite = true) :
    ∃ v, p.to_argsF = Except.ok v ∧
      JobPayloadF.from_job_typeF p.job_typeF v = Except.ok p := by
  refine ⟨p.argsJsonF, rfl, ?_⟩
  cases p with
  | Add m =>
    have h := fromJsonF_toJsonF m ha hb
    simp [JobPayloadF.from_job_typeF, JobPayloadF.job_typeF,
      JobPayloadF.argsJsonF, JobPayloadF.argsF, h]
  | Subtract m =>
    have h := fromJsonF_toJsonF m ha hb
    simp [JobPayloadF.from_job_typeF, JobPayloadF.job_typeF,
      JobPayloadF.argsJsonF, JobPayloadF.argsF, h]
  | Multiply m =>
    have h := fromJsonF_toJsonF m ha hb
    simp [JobPayloadF.from_job_typeF, JobPayloadF.job_typeF,
      JobPayloadF.argsJsonF, JobPayloadF.argsF, h]
  | Divide m =>
    have h := fromJsonF_toJsonF m ha hb
    simp [JobPayloadF.from_job_typeF, JobPayloadF.job_typeF,
      JobPayloadF.argsJsonF, JobPayloadF.argsF, h]

/-- Witness for the amended C2 at the repository test's concrete instance,
with both finiteness hypotheses discharged. -/
theorem C2_roundtrip_finite_witness :
    (JobPayloadF.Add ⟨.finite 5, .finite 3, some "test-123"⟩).argsF.a.isFinite
      = true ∧
    (JobPayloadF.Add ⟨.finite 5, .finite 3, some "test-123"⟩).argsF.b.isFinite
      = true ∧
    ∃ v, (JobPayloadF.Add ⟨.finite 5, .finite 3, some "test-123"⟩).to_argsF
        = Except.ok v ∧
      JobPayloadF.from_job_typeF
          (JobPayloadF.Add ⟨.finite 5, .finite 3, some "test-123"⟩).job_typeF v
        = Except.ok (JobPayloadF.Add ⟨.finite 5, .finite 3, some "test-123"⟩) :=
  ⟨rfl, rfl,
   C2_roundtrip_finite (.Add ⟨.finite 5, .finite 3, some "test-123"⟩) rfl rfl⟩

/-! ## Worker service (`crates/worker-service/src/main.rs`) -/

/-- Model of the worker's `io::Error` values: every error constructed in
`worker-service` uses `ErrorKind::InvalidInput` plus a message. -/
inductive WorkerError where
  | invalidInput (msg : String) : WorkerError
deriving DecidableEq, Repr

/-- `handle_add`: handler for addition jobs. -/
def handle_add (args : MathArgs) : Except WorkerError ℚ :=
  .ok (args.a + args.b)

/-- `handle_subtract`: handler for subtraction jobs. -/
def handle_subtract (args : MathArgs) : Except WorkerError ℚ :=
  .ok (args.a - args.b)

/-- `handle_multiply`: handler for multiplication jobs. -/
def handle_multiply (args : MathArgs) : Except WorkerError ℚ :=
  .ok (args.a * args.b)

/-- `handle_divide`: handler for division jobs; a zero divisor is a domain
error (`ErrorKind::InvalidInput`, "Division by zero"). -/
def handle_divide (args : MathArgs) : Except WorkerError ℚ :=
  if args.b = 0 then
    .error (.invalidInput "Division by zero")
  else
    .ok (args.a / args.b)

/-- Model of `faktory::Job` as consumed/produced by this system: the minted
job id (see the fresh-name convention in the header), the job-type tag
(`job.kind()`), and the argument list (`job.args()`). -/
structure Job where
  jid : Nat
  kind : String
  args : List Json

/-- The decode stage of `job_handler` (worker-service lines 43–58): take the
first element of `job.args()` (its absence is an `InvalidInput` error), then
parse it with `JobPayload::from_job_type`, wrapping a parse failure into an
`InvalidInput` error. The `?` operator's early return is the `error` branch. -/
def decodeJob (job : Job) : Except WorkerError JobPayload :=
  match job.args.get? 0 with
  | none => .error (.invalidInput "Job missing arguments")
  | some args_value =>
    match JobPayload.from_job_type job.kind args_value with
    | .ok payload => .ok payload
    | .error e => .error (.invalidInput ("Failed to parse job payload: " ++ e))

/-- The dispatch `match` of `job_handler`: route the decoded payload to the
matching handler. -/
def dispatch : JobPayload → Except WorkerError ℚ
  | .Add args => handle_add args
  | .Subtract args => handle_subtract args
  | .Multiply args => handle_multiply args
  | .Divide args => handle_divide args

/-- `job_handler`: decode the job, dispatch to the handler, and report: a
successful handler result `_value` is discarded (`Ok(())`); a handler error is
propagated. -/
def job_handler (job : Job) : Except WorkerError Unit :=
  match decodeJob job with
  | .error e => .error e
  | .ok payload =>
    match dispatch payload with
    | .ok _value => .ok ()
    | .error e => .error e

/-- The four job-type tags registered with the worker
(`register_fn` calls in `worker-service` `main`). -/
def registeredTags : List String :=
  ["math_add", "math_subtract", "math_multiply", "math_divide"]

/-- Modelled from the spec: the worker consumption loop itself lives in the
`faktory` crate (`Worker::run`), not in this repository's sources. Per spec
§4.5, the loop fetches each available job in order, dispatches it to the
registered handler (`job_handler` for all four tags), reports the per-job
outcome to the broker, and continues with the next job regardless of whether
the previous job succeeded or failed. The model processes a fetched job list
and records each job's (jid, outcome) report. -/
def runWorker (jobs : List Job) : List (Nat × Except WorkerError Unit) :=
  jobs.map (fun j => (j.jid, job_handler j))

/-- An unregistered tag falls through the whole dispatch chain of
`from_job_type` into the `Unknown job type` error. -/
theorem from_job_type_unknown (k : String) (v : Json) (hk : k ∉ registeredTags) :
    JobPayload.from_job_type k v = .error ("Unknown job type: " ++ k) := by
  simp only [registeredTags, List.mem_cons, not_or] at hk
  obtain ⟨h1, h2, h3, h4, -⟩ := hk
  unfold JobPayload.from_job_type
  rw [if_neg h1, if_neg h2, if_neg h3, if_neg h4]

/-- If the argument value does not decode into `MathArgs`, `from_job_type`
fails for every tag: each registered branch wraps the decode error, and an
unregistered tag is an unknown-tag error. -/
theorem from_job_type_bad_args (k : String) (v : Json) (e : String)
    (he : MathArgs.fromJson v = .error e) :
    ∃ e', JobPayload.from_job_type k v = .error e' := by
  unfold JobPayload.from_job_type
  split_ifs <;> first
  | (rw [he]; exact ⟨_, rfl⟩)
  | exact ⟨_, rfl⟩

/-- C6: `handle_divide` on `{a, b}` fails with the division-by-zero domain
error whenever `b = 0`, and for `b ≠ 0` succeeds with exactly the quotient
`a / b` (operands modelled by `ℚ`). -/
theorem C6_handle_divide (a b : ℚ) (rid : Option String) :
    (b = 0 →
      handle_divide ⟨a, b, rid⟩ = .error (.invalidInput "Division by zero")) ∧
    (b ≠ 0 → handle_divide ⟨a, b, rid⟩ = .ok (a / b)) := by
  constructor
  · intro hb
    simp [handle_divide, hb]
  · intro hb
    simp [handle_divide, hb]

/-- Witness for C6 at concrete inputs: dividing by `0` is the domain error,
and `6 / 3` succeeds with the quotient. -/
theorem C6_handle_divide_witness :
    handle_divide ⟨1, 0, none⟩ = .error (.invalidInput "Division by zero") ∧
    handle_divide ⟨6, 3, none⟩ = .ok (6 / 3 : ℚ) :=
  ⟨(C6_handle_divide 1 0 none).1 rfl,
   (C6_handle_divide 6 3 none).2 (by norm_num)⟩

/-- C10: the add, subtract and multiply handlers are total successes —
they return exactly `Ok(a + b)`, `Ok(a - b)` and `Ok(a * b)` and never an
error — while `handle_divide` does have a reachable error branch. -/
theorem C10_total_handlers (args : MathArgs) :
    handle_add args = .ok (args.a + args.b) ∧
    handle_subtract args = .ok (args.a - args.b) ∧
    handle_multiply args = .ok (args.a * args.b) ∧
    ∃ bad : MathArgs, ∃ e, handle_divide bad = .error e :=
  ⟨rfl, rfl, rfl, ⟨1, 0, none⟩, .invalidInput "Division by zero", rfl⟩

/-- C7: a fetched job whose tag is unregistered, or whose first argument does
not decode into `MathArgs` (or is missing), produces a job-level failure from
`job_handler` — a returned error value, never a crash — and the worker loop
still processes every other fetched job: the run over `pre ++ j :: post`
reports an outcome for each job of `pre` and `post` as well. -/
theorem C7_decode_failure_is_job_failure (pre post : List Job) (j : Job)
    (hbad : j.kind ∉ registeredTags ∨
      ∀ v, j.args.get? 0 = some v → ∃ e, MathArgs.fromJson v = .error e) :
    (∃ e, job_handler j = .error e) ∧
    runWorker (pre ++ j :: post) =
      runWorker pre ++ (j.jid, job_handler j) :: runWorker post := by
  constructor
  · unfold job_handler decodeJob
    cases hv : j.args.get? 0 with
    | none => exact ⟨_, rfl⟩
    | some v =>
      have hfail : ∃ e', JobPayload.from_job_type j.kind v = .error e' := by
        rcases hbad with hk | hargs
        · exact ⟨_, from_job_type_unknown j.kind v hk⟩
        · obtain ⟨e, he⟩ := hargs v hv
          exact from_job_type_bad_args j.kind v e he
      obtain ⟨e', he'⟩ := hfail
      simp only [he']
      exact ⟨_, rfl⟩
  · simp [runWorker]

/-- Witness for C7: an `"math_unknown"`-tagged job yields a reported failure
while the following well-formed job is still processed by the loop. -/
theorem C7_decode_failure_is_job_failure_witness :
    (⟨5, "math_unknown", [Json.null]⟩ : Job).kind ∉ registeredTags ∧
    (∃ e, job_handler ⟨5, "math_unknown", [Json.null]⟩ = .error e) ∧
    runWorker ([] ++ ⟨5, "math_unknown", [Json.null]⟩ ::
        [⟨6, "math_add", [MathArgs.toJson ⟨2, 3, none⟩]⟩]) =
      runWorker [] ++
        ((5 : Nat), job_handler ⟨5, "math_unknown", [Json.null]⟩) ::
        runWorker [⟨6, "math_add", [MathArgs.toJson ⟨2, 3, none⟩]⟩] := by
  refine ⟨by decide, ?_⟩
  exact C7_decode_failure_is_job_failure []
    [⟨6, "math_add", [MathArgs.toJson ⟨2, 3, none⟩]⟩]
    ⟨5, "math_unknown", [Json.null]⟩ (Or.inl (by decide))

/-- C9: for a job that decodes successfully, a successful handler result is
discarded — `job_handler` returns `Ok(())` whatever numeric value the handler
produced — and only a handler failure is propagated as the job's outcome. -/
theorem C9_result_discarded (job : Job) (p : JobPayload)
    (hdec : decodeJob job = .ok p) :
    (∀ v : ℚ, dispatch p = .ok v → job_handler job = .ok ()) ∧
    (∀ e : WorkerError, dispatch p = .error e → job_handler job = .error e) := by
  constructor
  · intro v hv
    simp [job_handler, hdec, hv]
  · intro e he
    simp [job_handler, hdec, he]

/-- Witness for C9: a concrete `math_add` job whose handler computes `5`
still reports only `Ok(())`. -/
theorem C9_result_discarded_witness :
    job_handler ⟨6, "math_add", [MathArgs.toJson ⟨2, 3, none⟩]⟩ = .ok () :=
  (C9_result_discarded ⟨6, "math_add", [MathArgs.toJson ⟨2, 3, none⟩]⟩
      (.Add ⟨2, 3, none⟩) rfl).1 5 (by norm_num [dispatch, handle_add])

/-! ## API service (`crates/api-service/src/main.rs`) -/

/-- `BatchConfig`: the three effectively-immutable batching parameters. -/
structure BatchConfig where
  max_batch_size : Nat
  max_batch_delay_ms : Nat
  auto_batch_enabled : Bool
deriving DecidableEq, Repr

/-- `BatchQueue`: the batch accumulator — an ordered sequence of pending
payloads plus the configuration. (`Vec::with_capacity` is a capacity hint
only; the model keeps the sequence.) -/
structure BatchQueue where
  pending_jobs : List JobPayload
  config : BatchConfig
deriving DecidableEq, Repr

/-- `BatchQueue::new`: empty pending sequence. -/
def BatchQueue.new (config : BatchConfig) : BatchQueue :=
  ⟨[], config⟩

/-- `BatchQueue::add`: push the job at the end of the pending sequence. -/
def BatchQueue.add (q : BatchQueue) (job : JobPayload) : BatchQueue :=
  { q with pending_jobs := q.pending_jobs ++ [job] }

/-- `BatchQueue::should_flush`: pending length ≥ configured maximum. -/
def BatchQueue.should_flush (q : BatchQueue) : Bool :=
  q.pending_jobs.length ≥ q.config.max_batch_size

/-- `BatchQueue::flush`: `mem::replace` the pending sequence with a fresh
empty one, returning the removed sequence alongside the updated queue. -/
def BatchQueue.flush (q : BatchQueue) : List JobPayload × BatchQueue :=
  (q.pending_jobs, { q with pending_jobs := [] })

/-- `BatchQueue::len`: current pending count. -/
def BatchQueue.len (q : BatchQueue) : Nat :=
  q.pending_jobs.length

/-- C3: `flush` returns exactly the pending jobs in insertion order and
resets the accumulator, so `len` right afterwards is `0`; concretely, with
maximum batch size 3, after adding `A`, `B` (not yet full), then `C` (full),
`flush` returns `[A, B, C]` and the queue is empty. -/
theorem C3_flush_returns_pending (q : BatchQueue) (A B C : JobPayload) :
    q.flush.1 = q.pending_jobs ∧ q.flush.2.len = 0 ∧
    ((((BatchQueue.new ⟨3, 50, true⟩).add A).add B).should_flush = false ∧
     ((((BatchQueue.new ⟨3, 50, true⟩).add A).add B).add C).should_flush = true ∧
     ((((BatchQueue.new ⟨3, 50, true⟩).add A).add B).add C).flush.1 = [A, B, C] ∧
     ((((BatchQueue.new ⟨3, 50, true⟩).add A).add B).add C).flush.2.len = 0) :=
  ⟨rfl, rfl, rfl, rfl, rfl, rfl⟩

/-- C4: `should_flush` holds exactly when the pending count has reached the
configured maximum — for every accumulator state (hence in particular for
every state reachable by `add`/`flush` sequences). -/
theorem C4_should_flush_iff (q : BatchQueue) :
    q.should_flush = true ↔ q.config.max_batch_size ≤ q.len := by
  simp [BatchQueue.should_flush, BatchQueue.len, ge_iff_le]

/-- The broker-facing effect state threaded through the enqueue helpers:
`next_jid` is the fresh-name counter modelling faktory's per-`Job::new` jid
minting; `pool_ok` models whether `pool.get()` can produce a connection;
`acquisitions` counts successful connection acquisitions from the pool;
`pushed` records every job transmitted to the broker (`client.enqueue`), in
transmission order. -/
structure BrokerState where
  next_jid : Nat
  pool_ok : Bool
  acquisitions : Nat
  pushed : List Job

/-- The job-construction loop of `enqueue_batch_jobs` (lines 162–170): for
each payload build `Job::new(job_type, vec![args])` — minting the next fresh
jid — and record `job.id().to_string()`. Returns the ids, the built jobs, and
the advanced jid counter. (`payload.to_args()` never fails, see
`JobPayload.to_args`.) -/
def buildJobs : List JobPayload → Nat → List Nat × List Job × Nat
  | [], c => ([], [], c)
  | p :: rest, c =>
    let job : Job := ⟨c, p.job_type, [p.argsJson]⟩
    let (ids, jobs, c') := buildJobs rest (c + 1)
    (c :: ids, job :: jobs, c')

/-- `enqueue_batch_jobs`: an empty payload list returns `Ok(vec![])` at once,
before any pool access; otherwise a single connection is acquired for the
whole batch (an acquisition failure surfaces as the pool-context error), all
jobs are built first (collecting their ids), and then every job is enqueued
over that one connection. -/
def enqueue_batch_jobs (payloads : List JobPayload) (s : BrokerState) :
    Except String (List Nat) × BrokerState :=
  match payloads with
  | [] => (.ok [], s)
  | _ :: _ =>
    if s.pool_ok then
      let (ids, jobs, c') := buildJobs payloads s.next_jid
      (.ok ids,
       { s with
          acquisitions := s.acquisitions + 1
          next_jid := c'
          pushed := s.pushed ++ jobs })
    else
      (.error "Failed to get Faktory connection from pool", s)

/-- `enqueue_job`: build one job (minting its jid), acquire one pooled
connection, push the job, and return the id. -/
def enqueue_job (payload : JobPayload) (s : BrokerState) :
    Except String Nat × BrokerState :=
  let job : Job := ⟨s.next_jid, payload.job_type, [payload.argsJson]⟩
  let s1 := { s with next_jid := s.next_jid + 1 }
  if s1.pool_ok then
    (.ok job.jid,
     { s1 with
        acquisitions := s1.acquisitions + 1
        pushed := s1.pushed ++ [job] })
  else
    (.error "Failed to get Faktory connection from pool", s1)

/-- C5: `enqueue_batch_jobs` on the empty payload list returns the empty id
list without failing and leaves the broker state — in particular the pool
acquisition count and the pushed-job log — untouched. -/
theorem C5_empty_batch (s : BrokerState) :
    enqueue_batch_jobs [] s = (.ok [], s) ∧
    (enqueue_batch_jobs [] s).2.acquisitions = s.acquisitions ∧
    (enqueue_batch_jobs [] s).2.pushed = s.pushed :=
  ⟨rfl, rfl, rfl⟩

/-- The full state of the batching enqueue subsystem: broker effects plus the
shared accumulator. -/
structure ApiState where
  broker : BrokerState
  queue : BatchQueue

/-- `enqueue_job_with_batching`: build a `Job` from the payload only to mint
an id (`// Create the job to get its ID`) — that `Job` value is then dropped;
add the payload to the batch queue; if the queue reports full, flush it and
submit the flushed snapshot through `enqueue_batch_jobs` (which builds fresh
`Job`s with fresh ids); finally return the id minted at the start. -/
def enqueue_job_with_batching (payload : JobPayload) (st : ApiState) :
    Except String Nat × ApiState :=
  let job : Job := ⟨st.broker.next_jid, payload.job_type, [payload.argsJson]⟩
  let job_id := job.jid
  let b1 := { st.broker with next_jid := st.broker.next_jid + 1 }
  let q1 := st.queue.add payload
  if q1.should_flush then
    let (jobs_to_flush, q2) := q1.flush
    let (res, b2) := enqueue_batch_jobs jobs_to_flush b1
    match res with
    | .ok _ => (.ok job_id, ⟨b2, q2⟩)
    | .error e => (.error e, ⟨b2, q2⟩)
  else
    (.ok job_id, ⟨b1, q1⟩)

/-- One wake-up of the background `batch_flusher` loop body: under the lock,
if the queue is non-empty take the flush snapshot; then submit it through
`enqueue_batch_jobs` (a submission failure is only logged — the state changes
it made stand, and the loop continues). -/
def batch_flusher_step (s : BrokerState) (q : BatchQueue) :
    BrokerState × BatchQueue :=
  if 0 < q.len then
    let (jobs, q2) := q.flush
    let (_res, s2) := enqueue_batch_jobs jobs s
    (s2, q2)
  else
    (s, q)

/-- C1 (refuted): the id returned by `enqueue_job_with_batching` never names
the job transmitted to the broker. With `max_batch_size = 1` the add itself
triggers the flush: the caller receives id `0` (minted for the dropped `Job`)
but the broker receives the payload under the freshly minted id `1`. With
`max_batch_size = 100` the payload stays queued and the background flusher
transmits it — again under fresh id `1`, not the returned id `0`. -/
theorem C1_returned_id_not_transmitted :
    ((enqueue_job_with_batching (.Add ⟨1, 2, none⟩)
        ⟨⟨0, true, 0, []⟩, BatchQueue.new ⟨1, 50, true⟩⟩).1 = .ok 0 ∧
     (enqueue_job_with_batching (.Add ⟨1, 2, none⟩)
        ⟨⟨0, true, 0, []⟩, BatchQueue.new ⟨1, 50, true⟩⟩).2.broker.pushed.map
        Job.jid = [1]) ∧
    ((enqueue_job_with_batching (.Add ⟨1, 2, none⟩)
        ⟨⟨0, true, 0, []⟩, BatchQueue.new ⟨100, 50, true⟩⟩).1 = .ok 0 ∧
     (batch_flusher_step
        (enqueue_job_with_batching (.Add ⟨1, 2, none⟩)
          ⟨⟨0, true, 0, []⟩, BatchQueue.new ⟨100, 50, true⟩⟩).2.broker
        (enqueue_job_with_batching (.Add ⟨1, 2, none⟩)
          ⟨⟨0, true, 0, []⟩, BatchQueue.new ⟨100, 50, true⟩⟩).2.queue).1.pushed.map
        Job.jid = [1]) :=
  ⟨⟨rfl, rfl⟩, rfl, rfl⟩

/-! ## Discrete-time model of the batching system for the latency bound (C8)

Time is discretised in milliseconds. At every tick the producers perform the
adds scheduled for that tick through the auto-batching path (each add may
size-trigger an immediate `submit_batch` of the flushed snapshot, as in
`enqueue_job_with_batching`); afterwards, at every positive multiple of the
flush interval, the background `batch_flusher` wakes and, if the queue is
non-empty, flushes it and submits the snapshot. Every `submit_batch`
invocation is recorded as a flush event `(tick, batch)`. The model idealises
the `sleep(interval)` loop as waking exactly every `interval` ticks with
instantaneous submission. -/

/-- The log of `submit_batch` invocations: `(tick, flushed batch)` pairs in
chronological order. -/
abbrev FlushEvents := List (Nat × List JobPayload)

/-- The accumulator interaction of `enqueue_job_with_batching`, performed for
each payload scheduled at tick `t`: add it to the queue, and if the queue
reports full, flush and submit the snapshot (recorded as an event at `t`). -/
def tickAdds (t : Nat) :
    List JobPayload → BatchQueue → FlushEvents → BatchQueue × FlushEvents
  | [], q, evs => (q, evs)
  | p :: rest, q, evs =>
    let q1 := q.add p
    if q1.should_flush then
      tickAdds t rest q1.flush.2 (evs ++ [(t, q1.flush.1)])
    else
      tickAdds t rest q1 evs

/-- One wake-up of the background flusher at tick `t`: if the queue is
non-empty, flush it and submit the snapshot (recorded as an event at `t`). -/
def tickFlusher (t : Nat) (q : BatchQueue) (evs : FlushEvents) :
    BatchQueue × FlushEvents :=
  if 0 < q.len then
    (q.flush.2, evs ++ [(t, q.flush.1)])
  else
    (q, evs)

/-- One tick of the whole system: producer adds first, then — at every
positive multiple of the interval `I` — the flusher wake-up. -/
def simStep (adds : Nat → List JobPayload) (I : Nat) (t : Nat)
    (st : BatchQueue × FlushEvents) : BatchQueue × FlushEvents :=
  let r := tickAdds t (adds t) st.1 st.2
  if t ≠ 0 ∧ t % I = 0 then tickFlusher t r.1 r.2 else r

/-- The system state after ticks `0, 1, …, n-1` have been processed, starting
from queue `q0` with no events. -/
def runSim (adds : Nat → List JobPayload) (I : Nat) (q0 : BatchQueue) :
    Nat → BatchQueue × FlushEvents
  | 0 => (q0, [])
  | n + 1 => simStep adds I n (runSim adds I q0 n)

/-- `tickAdds` only appends to the event log. -/
theorem tickAdds_mem_mono (t : Nat) (ps : List JobPayload) (q : BatchQueue)
    (evs : FlushEvents) (e : Nat × List JobPayload) (he : e ∈ evs) :
    e ∈ (tickAdds t ps q evs).2 := by
  induction ps generalizing q evs with
  | nil => simpa [tickAdds] using he
  | cons p rest ih =>
    simp only [tickAdds]
    by_cases h : (q.add p).should_flush = true
    · simp only [h, if_true]
      exact ih _ _ (List.mem_append_left _ he)
    · simp only [h, if_false]
      exact ih _ _ he

/-- Events created by `tickAdds` at tick `t` are stamped `t`. -/
theorem tickAdds_mem_stamp (t : Nat) (ps : List JobPayload) (q : BatchQueue)
    (evs : FlushEvents) (e : Nat × List JobPayload)
    (he : e ∈ (tickAdds t ps q evs).2) : e ∈ evs ∨ e.1 = t := by
  induction ps generalizing q evs with
  | nil => left; simpa [tickAdds] using he
  | cons p rest ih =>
    simp only [tickAdds] at he
    by_cases h : (q.add p).should_flush = true
    · simp only [h, if_true] at he
      rcases ih _ _ he with hin | hstamp
      · rcases List.mem_append.mp hin with hin' | hnew
        · exact Or.inl hin'
        · right
          simp only [List.mem_singleton] at hnew
          simp [hnew]
      · exact Or.inr hstamp
    · simp only [h, if_false] at he
      exact ih _ _ he

/-- A payload pending before `tickAdds` is, afterwards, either still pending
or part of a batch submitted at tick `t`. -/
theorem tickAdds_preserves (t : Nat) (ps : List JobPayload) (q : BatchQueue)
    (evs : FlushEvents) (p : JobPayload) (hp : p ∈ q.pending_jobs) :
    p ∈ (tickAdds t ps q evs).1.pending_jobs ∨
    ∃ batch, (t, batch) ∈ (tickAdds t ps q evs).2 ∧ p ∈ batch := by
  induction ps generalizing q evs with
  | nil => left; simpa [tickAdds] using hp
  | cons p' rest ih =>
    have hp1 : p ∈ (q.add p').pending_jobs := by
      simp only [BatchQueue.add]
      exact List.mem_append_left _ hp
    simp only [tickAdds]
    by_cases h : (q.add p').should_flush = true
    · simp only [h, if_true]
      refine Or.inr ⟨(q.add p').flush.1, ?_, hp1⟩
      exact tickAdds_mem_mono _ _ _ _ _
        (List.mem_append_right _ (List.mem_singleton.mpr rfl))
    · simp only [h, if_false]
      exact ih _ _ hp1

/-- A payload among those added by `tickAdds` at tick `t` ends up pending or
in a batch submitted at tick `t`. -/
theorem tickAdds_adds (t : Nat) (ps : List JobPayload) (q : BatchQueue)
    (evs : FlushEvents) (p : JobPayload) (hp : p ∈ ps) :
    p ∈ (tickAdds t ps q evs).1.pending_jobs ∨
    ∃ batch, (t, batch) ∈ (tickAdds t ps q evs).2 ∧ p ∈ batch := by
  induction ps generalizing q evs with
  | nil => cases hp
  | cons p' rest ih =>
    rcases List.mem_cons.mp hp with hhead | htail
    · subst hhead
      have hp1 : p ∈ (q.add p).pending_jobs := by
        simp [BatchQueue.add]
      simp only [tickAdds]
      by_cases h : (q.add p).should_flush = true
      · simp only [h, if_true]
        refine Or.inr ⟨(q.add p).flush.1, ?_, hp1⟩
        exact tickAdds_mem_mono _ _ _ _ _
          (List.mem_append_right _ (List.mem_singleton.mpr rfl))
      · simp only [h, if_false]
        exact tickAdds_preserves _ _ _ _ _ hp1
    · simp only [tickAdds]
      by_cases h : (q.add p').should_flush = true
      · simp only [h, if_true]
        exact ih _ _ htail
      · simp only [h, if_false]
        exact ih _ _ htail

/-- `tickFlusher` only appends to the event log. -/
theorem tickFlusher_mem_mono (t : Nat) (q : BatchQueue) (evs : FlushEvents)
    (e : Nat × List JobPayload) (he : e ∈ evs) :
    e ∈ (tickFlusher t q evs).2 := by
  unfold tickFlusher
  split_ifs
  · exact List.mem_append_left _ he
  · exact he

/-- Events created by `tickFlusher` at tick `t` are stamped `t`. -/
theorem tickFlusher_mem_stamp (t : Nat) (q : BatchQueue) (evs : FlushEvents)
    (e : Nat × List JobPayload) (he : e ∈ (tickFlusher t q evs).2) :
    e ∈ evs ∨ e.1 = t := by
  unfold tickFlusher at he
  split_ifs at he
  · rcases List.mem_append.mp he with hin | hnew
    · exact Or.inl hin
    · right
      simp only [List.mem_singleton] at hnew
      simp [hnew]
  · exact Or.inl he

/-- When the flusher wakes over a non-empty queue, every pending payload is
part of the batch it submits at tick `t`. -/
theorem tickFlusher_flushes (t : Nat) (q : BatchQueue) (evs : FlushEvents)
    (p : JobPayload) (hp : p ∈ q.pending_jobs) :
    ∃ batch, (t, batch) ∈ (tickFlusher t q evs).2 ∧ p ∈ batch := by
  unfold tickFlusher
  have hlen : 0 < q.len := by
    simp only [BatchQueue.len]
    exact List.length_pos_of_mem hp
  rw [if_pos hlen]
  exact ⟨q.flush.1,
    List.mem_append_right _ (List.mem_singleton.mpr rfl), hp⟩

/-- `simStep` only appends to the event log. -/
theorem simStep_mem_mono (adds : Nat → List JobPayload) (I u : Nat)
    (st : BatchQueue × FlushEvents) (e : Nat × List JobPayload)
    (he : e ∈ st.2) : e ∈ (simStep adds I u st).2 := by
  unfold simStep
  split_ifs
  · exact tickFlusher_mem_mono _ _ _ _ (tickAdds_mem_mono _ _ _ _ _ he)
  · exact tickAdds_mem_mono _ _ _ _ _ he

/-- Events created by `simStep` at tick `u` are stamped `u`. -/
theorem simStep_mem_stamp (adds : Nat → List JobPayload) (I u : Nat)
    (st : BatchQueue × FlushEvents) (e : Nat × List JobPayload)
    (he : e ∈ (simStep adds I u st).2) : e ∈ st.2 ∨ e.1 = u := by
  unfold simStep at he
  split_ifs at he
  · rcases tickFlusher_mem_stamp _ _ _ _ he with hin | hstamp
    · exact tickAdds_mem_stamp _ _ _ _ _ hin
    · exact Or.inr hstamp
  · exact tickAdds_mem_stamp _ _ _ _ _ he

/-- `simStep` at tick `u ≥ t` preserves "pending, or already submitted at
some tick `≥ t`". -/
theorem simStep_preserves (adds : Nat → List JobPayload) (I u t : Nat)
    (st : BatchQueue × FlushEvents) (p : JobPayload) (hu : t ≤ u)
    (h : p ∈ st.1.pending_jobs ∨
      ∃ t' batch, (t', batch) ∈ st.2 ∧ p ∈ batch ∧ t ≤ t') :
    p ∈ (simStep adds I u st).1.pending_jobs ∨
    ∃ t' batch, (t', batch) ∈ (simStep adds I u st).2 ∧ p ∈ batch ∧ t ≤ t' := by
  unfold simStep
  rcases h with hpend | ⟨t', batch, hmem, hpb, htt'⟩
  · rcases tickAdds_preserves u (adds u) st.1 st.2 p hpend with hpend1 | ⟨batch, hmem, hpb⟩
    · split_ifs
      · rcases tickFlusher_flushes u _ _ p hpend1 with ⟨batch, hmem, hpb⟩
        exact Or.inr ⟨u, batch, hmem, hpb, hu⟩
      · exact Or.inl hpend1
    · split_ifs
      · exact Or.inr ⟨u, batch, tickFlusher_mem_mono _ _ _ _ hmem, hpb, hu⟩
      · exact Or.inr ⟨u, batch, hmem, hpb, hu⟩
  · right
    refine ⟨t', batch, ?_, hpb, htt'⟩
    split_ifs
    · exact tickFlusher_mem_mono _ _ _ _ (tickAdds_mem_mono _ _ _ _ _ hmem)
    · exact tickAdds_mem_mono _ _ _ _ _ hmem

/-- A payload scheduled at tick `t` is, after `simStep` at `t`, pending or
already submitted at tick `t`. -/
theorem simStep_adds (adds : Nat → List JobPayload) (I t : Nat)
    (st : BatchQueue × FlushEvents) (p : JobPayload) (hp : p ∈ adds t) :
    p ∈ (simStep adds I t st).1.pending_jobs ∨
    ∃ t' batch, (t', batch) ∈ (simStep adds I t st).2 ∧ p ∈ batch ∧ t ≤ t' := by
  unfold simStep
  rcases tickAdds_adds t (adds t) st.1 st.2 p hp with hpend | ⟨batch, hmem, hpb⟩
  · split_ifs
    · rcases tickFlusher_flushes t _ _ p hpend with ⟨batch, hmem, hpb⟩
      exact Or.inr ⟨t, batch, hmem, hpb, le_refl t⟩
    · exact Or.inl hpend
  · split_ifs
    · exact Or.inr ⟨t, batch, tickFlusher_mem_mono _ _ _ _ hmem, hpb, le_refl t⟩
    · exact Or.inr ⟨t, batch, hmem, hpb, le_refl t⟩

/-- If `simStep` runs at a flusher tick (`u ≠ 0`, `u % I = 0`), every payload
pending beforehand is part of a batch submitted at tick `u`. -/
theorem simStep_flushes (adds : Nat → List JobPayload) (I u : Nat)
    (st : BatchQueue × FlushEvents) (p : JobPayload) (hu0 : u ≠ 0)
    (huI : u % I = 0) (hp : p ∈ st.1.pending_jobs) :
    ∃ batch, (u, batch) ∈ (simStep adds I u st).2 ∧ p ∈ batch := by
  unfold simStep
  rw [if_pos ⟨hu0, huI⟩]
  rcases tickAdds_preserves u (adds u) st.1 st.2 p hp with hpend1 | ⟨batch, hmem, hpb⟩
  · exact tickFlusher_flushes u _ _ p hpend1
  · exact ⟨batch, tickFlusher_mem_mono _ _ _ _ hmem, hpb⟩

/-- The event log of the simulation only grows with time. -/
theorem runSim_mem_mono (adds : Nat → List JobPayload) (I : Nat)
    (q0 : BatchQueue) (m n : Nat) (hmn : m ≤ n) (e : Nat × List JobPayload)
    (he : e ∈ (runSim adds I q0 m).2) : e ∈ (runSim adds I q0 n).2 := by
  induction n with
  | zero =>
    have hm : m = 0 := Nat.le_zero.mp hmn
    subst hm
    exact he
  | succ k ih =>
    by_cases hm : m = k + 1
    · subst hm
      exact he
    · have hmk : m ≤ k := by omega
      exact simStep_mem_mono adds I k _ e (ih hmk)

/-- Every event in the log after `n` ticks was created at a tick `< n`. -/
theorem runSim_mem_stamp (adds : Nat → List JobPayload) (I : Nat)
    (q0 : BatchQueue) (n : Nat) (e : Nat × List JobPayload)
    (he : e ∈ (runSim adds I q0 n).2) : e.1 < n := by
  induction n with
  | zero => simp [runSim] at he
  | succ k ih =>
    rcases simStep_mem_stamp adds I k _ e he with hin | hstamp
    · exact Nat.lt_succ_of_lt (ih hin)
    · omega

/-- Main invariant: a payload scheduled at tick `t` is, at every later
observation point, still pending or already part of a batch submitted at some
tick `≥ t`. -/
theorem runSim_pending_or_flushed (adds : Nat → List JobPayload) (I : Nat)
    (q0 : BatchQueue) (t : Nat) (p : JobPayload) (hp : p ∈ adds t) :
    ∀ n, t < n →
      p ∈ (runSim adds I q0 n).1.pending_jobs ∨
      ∃ t' batch, (t', batch) ∈ (runSim adds I q0 n).2 ∧ p ∈ batch ∧ t ≤ t' := by
  intro n
  induction n with
  | zero => omega
  | succ k ih =>
    intro hk
    by_cases hkt : t < k
    · exact simStep_preserves adds I k t _ p (Nat.le_of_lt hkt) (ih hkt)
    · have hkeq : k = t := by omega
      subst hkeq
      exact simStep_adds adds I k _ p hp

/-- C8: bounded flush latency. If the flush interval `I` is positive, any
payload scheduled through the auto-batching path at tick `t` is part of a
`submit_batch` invocation at some tick `t'` with `t ≤ t' ≤ t + I`: either a
size-triggered flush takes it earlier, or the background flusher — waking at
every positive multiple of `I` and flushing whenever the queue is non-empty —
takes it at the first wake-up after `t`. -/
theorem C8_flush_latency (adds : Nat → List JobPayload) (I : Nat)
    (cfg : BatchConfig) (t : Nat) (p : JobPayload)
    (hI : 0 < I) (hp : p ∈ adds t) :
    ∃ t' batch,
      (t', batch) ∈ (runSim adds I (BatchQueue.new cfg) (t + I + 1)).2 ∧
      p ∈ batch ∧ t ≤ t' ∧ t' ≤ t + I := by
  have hdm : I * (t / I) + t % I = t := Nat.div_add_mod t I
  have hmod : t % I < I := Nat.mod_lt t hI
  have hw_eq : I * (t / I + 1) = I * (t / I) + I := Nat.mul_succ I (t / I)
  set w := I * (t / I + 1) with hw_def
  have hwt : t < w := by omega
  have hwle : w ≤ t + I := by omega
  have hw0 : w ≠ 0 := by omega
  have hwI : w % I = 0 := by
    rw [hw_def]
    exact Nat.mul_mod_right I (t / I + 1)
  rcases runSim_pending_or_flushed adds I (BatchQueue.new cfg) t p hp w hwt with
    hpend | ⟨t', batch, hmem, hpb, htt'⟩
  · rcases simStep_flushes adds I w (runSim adds I (BatchQueue.new cfg) w) p
      hw0 hwI hpend with ⟨batch, hmem, hpb⟩
    have hmem1 : (w, batch) ∈ (runSim adds I (BatchQueue.new cfg) (w + 1)).2 := hmem
    exact ⟨w, batch,
      runSim_mem_mono adds I (BatchQueue.new cfg) (w + 1) (t + I + 1)
        (by omega) _ hmem1,
      hpb, Nat.le_of_lt hwt, hwle⟩
  · have ht'w : t' < w := runSim_mem_stamp adds I (BatchQueue.new cfg) w _ hmem
    exact ⟨t', batch,
      runSim_mem_mono adds I (BatchQueue.new cfg) w (t + I + 1)
        (by omega) _ hmem,
      hpb, htt', by omega⟩

/-- Witness for C8: one payload scheduled at tick 0, threshold never reached
(maximum 100), interval 2 — the flusher's wake at tick 2 submits it. -/
theorem C8_flush_latency_witness :
    (0 : Nat) < 2 ∧
    JobPayload.Add ⟨1, 2, none⟩ ∈
      (fun u => if u = 0 then [JobPayload.Add ⟨1, 2, none⟩] else []) 0 ∧
    ∃ t' batch,
      (t', batch) ∈ (runSim
        (fun u => if u = 0 then [JobPayload.Add ⟨1, 2, none⟩] else []) 2
        (BatchQueue.new ⟨100, 2, true⟩) (0 + 2 + 1)).2 ∧
      JobPayload.Add ⟨1, 2, none⟩ ∈ batch ∧ 0 ≤ t' ∧ t' ≤ 0 + 2 :=
  ⟨by decide, by simp,
   C8_flush_latency
     (fun u => if u = 0 then [JobPayload.Add ⟨1, 2, none⟩] else []) 2
     ⟨100, 2, true⟩ 0 (.Add ⟨1, 2, none⟩) (by decide) (by simp)⟩

end WorkFactory
